import Mathlib

set_option linter.unusedVariables false

/-!
Verification of the ADTS framing, header parsing and artifact-dump logic of
`scripts/faad2_debug.c`.  The C functions `parse_adts_header`, `find_adts_sync`,
`dump_adts_header`, `dump_pcm` and the decode loop of `main` are shallowly
embedded below; buffers are lists of byte values, the external FAAD2 decoder is
an oracle (one `DecodeResult` per decode invocation), and the loop is a step
function iterated with explicit fuel.
-/

/-- Mirrors `adts_header_t` of faad2_debug.c: the fifteen parsed header fields. -/
structure AdtsHeader where
  syncword : Nat
  id : Nat
  layer : Nat
  protection_absent : Nat
  profile : Nat
  sf_index : Nat
  private_bit : Nat
  channel_config : Nat
  original : Nat
  home : Nat
  copyright_bit : Nat
  copyright_start : Nat
  frame_length : Nat
  buffer_fullness : Nat
  num_raw_blocks : Nat
deriving DecidableEq

/-- Mirrors `parse_adts_header(data, len, hdr)`: fails (returns -1 in C, `none`
here) when fewer than 7 bytes remain or the sync bytes do not match; otherwise
extracts every field by the shift/mask expressions of the C source. -/
def parse_adts_header (data : List Nat) : Option AdtsHeader :=
  if data.length < 7 then none
  else if data.getD 0 0 ≠ 0xFF ∨ (data.getD 1 0) &&& 0xF0 ≠ 0xF0 then none
  else some {
    syncword := 0xFFF
    id := (data.getD 1 0 >>> 3) &&& 0x01
    layer := (data.getD 1 0 >>> 1) &&& 0x03
    protection_absent := data.getD 1 0 &&& 0x01
    profile := (data.getD 2 0 >>> 6) &&& 0x03
    sf_index := (data.getD 2 0 >>> 2) &&& 0x0F
    private_bit := (data.getD 2 0 >>> 1) &&& 0x01
    channel_config := ((data.getD 2 0 &&& 0x01) <<< 2) ||| ((data.getD 3 0 >>> 6) &&& 0x03)
    original := (data.getD 3 0 >>> 5) &&& 0x01
    home := (data.getD 3 0 >>> 4) &&& 0x01
    copyright_bit := (data.getD 3 0 >>> 3) &&& 0x01
    copyright_start := (data.getD 3 0 >>> 2) &&& 0x01
    frame_length := ((data.getD 3 0 &&& 0x03) <<< 11) ||| (data.getD 4 0 <<< 3) |||
      ((data.getD 5 0 >>> 5) &&& 0x07)
    buffer_fullness := ((data.getD 5 0 &&& 0x1F) <<< 6) ||| ((data.getD 6 0 >>> 2) &&& 0x3F)
    num_raw_blocks := data.getD 6 0 &&& 0x03 }

/-- Mirrors `find_adts_sync(data, len)`: first index `i` with `i + 1 < len`,
`data[i] == 0xFF` and `(data[i+1] & 0xF0) == 0xF0`; `none` mirrors -1. -/
def find_adts_sync : List Nat → Option Nat
  | a :: b :: rest =>
    if a = 0xFF ∧ b &&& 0xF0 = 0xF0 then some 0
    else (find_adts_sync (b :: rest)).map (· + 1)
  | _ => none

/-- Mirrors the 16-byte buffer assembled by `dump_adts_header` (the content of a
`frame_NNNN_adts.bin` artifact). -/
def dump_adts_header_bytes (hdr : AdtsHeader) : List Nat :=
  [(hdr.syncword >>> 8) &&& 0xFF, hdr.syncword &&& 0xFF,
   hdr.id, hdr.layer, hdr.protection_absent, hdr.profile, hdr.sf_index,
   hdr.private_bit, hdr.channel_config, hdr.original, hdr.home,
   (hdr.frame_length >>> 8) &&& 0xFF, hdr.frame_length &&& 0xFF,
   (hdr.buffer_fullness >>> 8) &&& 0xFF, hdr.buffer_fullness &&& 0xFF,
   hdr.num_raw_blocks]

/-- The `FAAD_FMT_*` output-format constants of the FAAD2 API. -/
inductive SampleFormat where
  | fmt16bit
  | fmt24bit
  | fmt32bit
  | fmtFloat
  | fmtDouble
  | fmtOther
deriving DecidableEq

/-- Mirrors the `switch (format)` of `dump_pcm` selecting the per-sample byte width. -/
def sample_byte_width : SampleFormat → Nat
  | .fmt16bit => 2
  | .fmt24bit => 4
  | .fmt32bit => 4
  | .fmtFloat => 4
  | .fmtDouble => 8
  | .fmtOther => 2

/-- Mirrors `dump_pcm`: the artifact holds `num_samples * channels * sample_size`
bytes of the decoder's buffer. -/
def dump_pcm_size (num_samples channels : Nat) (fmt : SampleFormat) : Nat :=
  num_samples * channels * sample_byte_width fmt

/-- One on-disk per-frame artifact: either a 16-byte header record or a PCM dump
of the given byte length, both tagged with the frame index in their file name. -/
inductive Artifact where
  | header (frame : Nat) (bytes : List Nat)
  | pcm (frame : Nat) (byteLen : Nat)
deriving DecidableEq

/-- True exactly on `frame_NNNN_adts.bin` artifacts. -/
def isHeaderArtifact : Artifact → Bool
  | .header _ _ => true
  | .pcm _ _ => false

/-- Oracle answer of one `NeAACDecDecode` call: the `error`, `samples` and
`channels` fields of `NeAACDecFrameInfo`, plus whether the returned sample
pointer is non-NULL. -/
structure DecodeResult where
  error : Nat
  has_samples_ptr : Bool
  samples : Nat
  channels : Nat
deriving DecidableEq

/-- The mutable state of the decode loop in `main`: `pos`, `frame_num`,
`total_samples`, the number of decode calls made, and the artifacts written. -/
structure DriverState where
  pos : Nat
  frame_num : Nat
  total_samples : Nat
  calls : Nat
  artifacts : List Artifact
deriving DecidableEq

/-- Result of one loop-body execution: leave the loop or continue with a new state. -/
inductive StepOut where
  | halt
  | next (s : DriverState)
deriving DecidableEq

/-- One iteration of the `while` loop of `main`: check the loop condition, find
the next sync, parse and validate the header (advancing by one byte on failure),
dump the header artifact, invoke the decoder oracle, optionally dump PCM and
accumulate samples, and advance by the declared frame length. -/
def driveStep (f : List Nat) (mf : Int) (dec : Nat → DecodeResult) (s : DriverState) : StepOut :=
  if s.pos < f.length ∧ (s.frame_num : Int) < mf then
    match find_adts_sync (f.drop s.pos) with
    | none => .halt
    | some k =>
      match parse_adts_header (f.drop (s.pos + k)) with
      | none => .next { s with pos := s.pos + k + 1 }
      | some hdr =>
        if hdr.frame_length < 7 ∨ s.pos + k + hdr.frame_length > f.length then
          .next { s with pos := s.pos + k + 1 }
        else
          if (dec s.frame_num).error ≠ 0 then
            .next { pos := s.pos + k + hdr.frame_length, frame_num := s.frame_num + 1,
                    total_samples := s.total_samples, calls := s.calls + 1,
                    artifacts := s.artifacts ++
                      [.header s.frame_num (dump_adts_header_bytes hdr)] }
          else if (dec s.frame_num).has_samples_ptr = true ∧ 0 < (dec s.frame_num).samples then
            .next { pos := s.pos + k + hdr.frame_length, frame_num := s.frame_num + 1,
                    total_samples := s.total_samples +
                      (dec s.frame_num).samples / (dec s.frame_num).channels,
                    calls := s.calls + 1,
                    artifacts := s.artifacts ++
                      [.header s.frame_num (dump_adts_header_bytes hdr),
                       .pcm s.frame_num (dump_pcm_size
                         ((dec s.frame_num).samples / (dec s.frame_num).channels)
                         (dec s.frame_num).channels SampleFormat.fmt16bit)] }
          else
            .next { pos := s.pos + k + hdr.frame_length, frame_num := s.frame_num + 1,
                    total_samples := s.total_samples, calls := s.calls + 1,
                    artifacts := s.artifacts ++
                      [.header s.frame_num (dump_adts_header_bytes hdr)] }
  else .halt

/-- Fuel-indexed iteration of `driveStep`; `none` means the fuel ran out. -/
def driveAux (f : List Nat) (mf : Int) (dec : Nat → DecodeResult) :
    Nat → DriverState → Option DriverState
  | 0, _ => none
  | fuel + 1, s =>
    match driveStep f mf dec s with
    | .halt => some s
    | .next s' => driveAux f mf dec fuel s'

/-- The whole decode loop: `f.length + 1 - s.pos` fuel always suffices (the
cursor strictly increases while it stays below `f.length`). -/
def drive (f : List Nat) (mf : Int) (dec : Nat → DecodeResult) (s : DriverState) : DriverState :=
  (driveAux f mf dec (f.length + 1 - s.pos) s).getD s

/-- Oracle answer of `NeAACDecInit`: the returned byte count (negative means
failure) and the detected stream parameters. -/
structure InitResult where
  consumed : Int
  sample_rate : Nat
  channels : Nat
deriving DecidableEq

/-- The run summary (`info.json` fields) together with the per-frame artifacts. -/
structure RunOutput where
  sample_rate : Nat
  channels : Nat
  total_frames : Nat
  total_samples : Nat
  artifacts : List Artifact
deriving DecidableEq

/-- Mirrors `main` after the input file is in memory: fatal (`none`) if no sync
word exists or decoder initialization fails, otherwise run the loop from the
first sync offset and write the summary. -/
def main_run (f : List Nat) (mf : Int) (ini : InitResult) (dec : Nat → DecodeResult) :
    Option RunOutput :=
  match find_adts_sync f with
  | none => none
  | some sync_offset =>
    if ini.consumed < 0 then none
    else
      some ⟨ini.sample_rate, ini.channels,
        (drive f mf dec ⟨sync_offset, 0, 0, 0, []⟩).frame_num,
        (drive f mf dec ⟨sync_offset, 0, 0, 0, []⟩).total_samples,
        (drive f mf dec ⟨sync_offset, 0, 0, 0, []⟩).artifacts⟩

/-- The sync-candidate predicate scanned for by `find_adts_sync`: byte `i` is
0xFF, the top nibble of byte `i + 1` is 0xF, and `i + 1` is still in range. -/
def syncPred (l : List Nat) (i : Nat) : Prop :=
  i + 1 < l.length ∧ l.getD i 0 = 0xFF ∧ (l.getD (i + 1) 0) &&& 0xF0 = 0xF0

instance (l : List Nat) (i : Nat) : Decidable (syncPred l i) := by
  unfold syncPred; infer_instance

/-- The twelve header fields that are actually serialized into a header
artifact, as recovered by field-decoding its 16 bytes. -/
structure ArtifactFields where
  id : Nat
  layer : Nat
  protection_absent : Nat
  profile : Nat
  sf_index : Nat
  private_bit : Nat
  channel_config : Nat
  original : Nat
  home : Nat
  frame_length : Nat
  buffer_fullness : Nat
  num_raw_blocks : Nat
deriving DecidableEq

/-- Field-decodes a 16-byte header artifact according to its layout: single-byte
fields verbatim, `frame_length` and `buffer_fullness` as big-endian 16-bit
integers. -/
def decode_artifact : List Nat → Option ArtifactFields
  | [_, _, fid, fla, fpa, fpr, fsf, fpb, fcc, fog, fhm, flh, fll, bfh, bfl, nrb] =>
    some ⟨fid, fla, fpa, fpr, fsf, fpb, fcc, fog, fhm,
      flh * 256 + fll, bfh * 256 + bfl, nrb⟩
  | _ => none

/-- The 7 header bytes read as one 56-bit big-endian word. -/
def headerWord (data : List Nat) : Nat :=
  data.getD 0 0 * 281474976710656 + data.getD 1 0 * 1099511627776 +
  data.getD 2 0 * 4294967296 + data.getD 3 0 * 16777216 +
  data.getD 4 0 * 65536 + data.getD 5 0 * 256 + data.getD 6 0

/-- The `width`-bit field starting at big-endian bit offset `off` (most
significant bit of byte 0 is offset 0) of a 56-bit word. -/
def bitField (v off width : Nat) : Nat := v / 2 ^ (56 - off - width) % 2 ^ width

/-- The fourteen ADTS header fields listed in §3 of the specification. -/
structure SpecFields where
  id : Nat
  layer : Nat
  protection_absent : Nat
  profile : Nat
  sf_index : Nat
  private_bit : Nat
  channel_config : Nat
  original : Nat
  home : Nat
  copyright_bit : Nat
  copyright_start : Nat
  frame_length : Nat
  buffer_fullness : Nat
  num_raw_blocks : Nat
deriving DecidableEq

/-- Modelled from the spec: the §3 big-endian bit-field decomposition of the
7-byte header (12-bit syncword, then the fourteen fields at their fixed
widths). -/
def bigEndianFields (v : Nat) : SpecFields :=
  ⟨bitField v 12 1, bitField v 13 2, bitField v 15 1, bitField v 16 2,
   bitField v 18 4, bitField v 22 1, bitField v 23 3, bitField v 26 1,
   bitField v 27 1, bitField v 28 1, bitField v 29 1, bitField v 30 13,
   bitField v 43 11, bitField v 54 2⟩

/-- A concrete single-frame ADTS stream: valid sync, `frame_length = 7`. -/
def exFrame : List Nat := [0xFF, 0xF1, 0x50, 0x00, 0x00, 0xE0, 0x00]

/-- The header record `parse_adts_header` extracts from `exFrame`. -/
def exHdr : AdtsHeader := ⟨0xFFF, 0, 0, 1, 1, 4, 0, 0, 0, 0, 0, 0, 7, 0, 0⟩

/-- A decoder oracle that always succeeds with 3 samples over 2 channels. -/
def exDecodeOk : Nat → DecodeResult := fun _ => ⟨0, true, 3, 2⟩

/-- The artifacts the loop writes for `exFrame` with oracle `exDecodeOk`. -/
def exArts : List Artifact :=
  [.header 0 [15, 255, 0, 0, 1, 1, 4, 0, 0, 0, 0, 0, 7, 0, 0, 0], .pcm 0 4]

example : parse_adts_header exFrame = some exHdr := by decide
example : find_adts_sync exFrame = some 0 := by decide
example : drive exFrame 1 exDecodeOk ⟨0, 0, 0, 0, []⟩ = ⟨7, 1, 1, 1, exArts⟩ := by decide

theorem and_one (x : Nat) : x &&& 1 = x % 2 := Nat.and_pow_two_sub_one_eq_mod x 1

theorem and_three (x : Nat) : x &&& 3 = x % 4 := by
  simpa using Nat.and_pow_two_sub_one_eq_mod x 2

theorem and_seven (x : Nat) : x &&& 7 = x % 8 := by
  simpa using Nat.and_pow_two_sub_one_eq_mod x 3

theorem and_fifteen (x : Nat) : x &&& 15 = x % 16 := by
  simpa using Nat.and_pow_two_sub_one_eq_mod x 4

theorem and_thirtyone (x : Nat) : x &&& 31 = x % 32 := by
  simpa using Nat.and_pow_two_sub_one_eq_mod x 5

theorem and_sixtythree (x : Nat) : x &&& 63 = x % 64 := by
  simpa using Nat.and_pow_two_sub_one_eq_mod x 6

theorem and_twofiftyfive (x : Nat) : x &&& 255 = x % 256 := by
  simpa using Nat.and_pow_two_sub_one_eq_mod x 8

theorem mul_pow_add_eq_or {a b k : Nat} (hb : b < 2 ^ k) : (a * 2 ^ k) ||| b = a * 2 ^ k + b := by
  apply Nat.eq_of_testBit_eq
  intro j
  rw [Nat.testBit_lor, Nat.mul_comm, Nat.testBit_mul_pow_two_add a hb j, Nat.testBit_mul_pow_two]
  by_cases h : j < k
  · simp [h, Nat.not_le.2 h]
  · have hbj : b.testBit j = false := by
      apply Nat.testBit_lt_two_pow
      exact lt_of_lt_of_le hb (Nat.pow_le_pow_right (by norm_num) (Nat.le_of_not_lt h))
    simp [h, Nat.le_of_not_lt h, hbj]

theorem channel_config_decomp (x y : Nat) :
    ((x &&& 1) <<< 2) ||| ((y >>> 6) &&& 3) = x % 2 * 4 + y / 64 % 4 := by
  rw [and_one, Nat.shiftRight_eq_div_pow, and_three, Nat.shiftLeft_eq,
    mul_pow_add_eq_or (show y / 2 ^ 6 % 4 < 2 ^ 2 by omega)]
  norm_num

theorem frame_length_decomp (x y z : Nat) (hy : y < 256) :
    ((x &&& 3) <<< 11) ||| (y <<< 3) ||| ((z >>> 5) &&& 7) =
      x % 4 * 2048 + y * 8 + z / 32 % 8 := by
  rw [and_three, Nat.shiftRight_eq_div_pow, and_seven, Nat.shiftLeft_eq, Nat.shiftLeft_eq]
  rw [mul_pow_add_eq_or (show y * 2 ^ 3 < 2 ^ 11 by omega)]
  have he : x % 4 * 2 ^ 11 + y * 2 ^ 3 = (x % 4 * 2 ^ 8 + y) * 2 ^ 3 := by ring
  rw [he, mul_pow_add_eq_or (show z / 2 ^ 5 % 8 < 2 ^ 3 by omega)]
  norm_num
  omega

theorem buffer_fullness_decomp (x y : Nat) :
    ((x &&& 31) <<< 6) ||| ((y >>> 2) &&& 63) = x % 32 * 64 + y / 4 % 64 := by
  rw [and_thirtyone, Nat.shiftRight_eq_div_pow, and_sixtythree, Nat.shiftLeft_eq,
    mul_pow_add_eq_or (show y / 2 ^ 2 % 64 < 2 ^ 6 by omega)]
  norm_num

theorem be16_roundtrip (x : Nat) : ((x >>> 8) &&& 255) * 256 + (x &&& 255) = x % 65536 := by
  rw [Nat.shiftRight_eq_div_pow, and_twofiftyfive, and_twofiftyfive]
  omega

theorem byte_getD_lt (data : List Nat) (hb : ∀ b ∈ data, b < 256) (i : Nat) :
    data.getD i 0 < 256 := by
  rw [List.getD_eq_getElem?_getD]
  cases h : data[i]? with
  | none => simp
  | some x => simpa using hb x (List.getElem?_mem h)

theorem syncPred_cons_succ (a : Nat) (l : List Nat) (i : Nat) :
    syncPred (a :: l) (i + 1) ↔ syncPred l i := by
  simp [syncPred, Nat.succ_lt_succ_iff]

theorem syncPred_cons2_zero (a b : Nat) (rest : List Nat) :
    syncPred (a :: b :: rest) 0 ↔ (a = 0xFF ∧ b &&& 0xF0 = 0xF0) := by
  simp [syncPred]

theorem find_adts_sync_cons2 (a b : Nat) (rest : List Nat) :
    find_adts_sync (a :: b :: rest) =
      if a = 0xFF ∧ b &&& 0xF0 = 0xF0 then some 0
      else (find_adts_sync (b :: rest)).map (· + 1) := rfl

theorem find_adts_sync_some (l : List Nat) : ∀ i,
    (find_adts_sync l = some i ↔ syncPred l i ∧ ∀ j, j < i → ¬ syncPred l j) := by
  induction l with
  | nil =>
    intro i
    simp [find_adts_sync, syncPred]
  | cons a t ih =>
    intro i
    match t with
    | [] =>
      simp [find_adts_sync, syncPred]
    | b :: rest =>
      rw [find_adts_sync_cons2]
      by_cases hc : a = 0xFF ∧ b &&& 0xF0 = 0xF0
      · rw [if_pos hc]
        constructor
        · intro h
          injection h with h
          subst h
          exact ⟨(syncPred_cons2_zero a b rest).2 hc, fun j hj => absurd hj (Nat.not_lt_zero j)⟩
        · rintro ⟨hp, hmin⟩
          match i with
          | 0 => rfl
          | i + 1 =>
            exact absurd ((syncPred_cons2_zero a b rest).2 hc) (hmin 0 (Nat.succ_pos i))
      · rw [if_neg hc]
        constructor
        · intro h
          rcases Option.map_eq_some'.1 h with ⟨i', hi', rfl⟩
          have hih := (ih i').1 hi'
          refine ⟨(syncPred_cons_succ a (b :: rest) i').2 hih.1, ?_⟩
          intro j hj
          match j with
          | 0 => exact fun h0 => hc ((syncPred_cons2_zero a b rest).1 h0)
          | j + 1 =>
            intro hPj
            exact hih.2 j (by omega) ((syncPred_cons_succ a (b :: rest) j).1 hPj)
        · rintro ⟨hp, hmin⟩
          match i with
          | 0 => exact absurd ((syncPred_cons2_zero a b rest).1 hp) hc
          | i + 1 =>
            have htail : find_adts_sync (b :: rest) = some i := by
              refine (ih i).2 ⟨(syncPred_cons_succ a (b :: rest) i).1 hp, ?_⟩
              intro j hj hPj
              exact hmin (j + 1) (by omega) ((syncPred_cons_succ a (b :: rest) j).2 hPj)
            simp [htail]

theorem find_adts_sync_none (l : List Nat) :
    find_adts_sync l = none ↔ ∀ i, ¬ syncPred l i := by
  constructor
  · intro h i hPi
    have hex : ∃ j, syncPred l j := ⟨i, hPi⟩
    have hleast := Nat.find_spec hex
    have hmin : ∀ j, j < Nat.find hex → ¬ syncPred l j := fun j hj => Nat.find_min hex hj
    have : find_adts_sync l = some (Nat.find hex) :=
      (find_adts_sync_some l (Nat.find hex)).2 ⟨hleast, hmin⟩
    rw [h] at this
    exact Option.noConfusion this
  · intro h
    cases hf : find_adts_sync l with
    | none => rfl
    | some i =>
      exact absurd ((find_adts_sync_some l i).1 hf).1 (h i)

theorem parse_eq_some (data : List Nat) (hdr : AdtsHeader)
    (h : parse_adts_header data = some hdr) :
    7 ≤ data.length ∧ data.getD 0 0 = 0xFF ∧ (data.getD 1 0) &&& 0xF0 = 0xF0 ∧
    hdr = { syncword := 0xFFF
            id := (data.getD 1 0 >>> 3) &&& 0x01
            layer := (data.getD 1 0 >>> 1) &&& 0x03
            protection_absent := data.getD 1 0 &&& 0x01
            profile := (data.getD 2 0 >>> 6) &&& 0x03
            sf_index := (data.getD 2 0 >>> 2) &&& 0x0F
            private_bit := (data.getD 2 0 >>> 1) &&& 0x01
            channel_config := ((data.getD 2 0 &&& 0x01) <<< 2) ||| ((data.getD 3 0 >>> 6) &&& 0x03)
            original := (data.getD 3 0 >>> 5) &&& 0x01
            home := (data.getD 3 0 >>> 4) &&& 0x01
            copyright_bit := (data.getD 3 0 >>> 3) &&& 0x01
            copyright_start := (data.getD 3 0 >>> 2) &&& 0x01
            frame_length := ((data.getD 3 0 &&& 0x03) <<< 11) ||| (data.getD 4 0 <<< 3) |||
              ((data.getD 5 0 >>> 5) &&& 0x07)
            buffer_fullness := ((data.getD 5 0 &&& 0x1F) <<< 6) ||| ((data.getD 6 0 >>> 2) &&& 0x3F)
            num_raw_blocks := data.getD 6 0 &&& 0x03 } := by
  unfold parse_adts_header at h
  split at h
  · exact absurd h (by simp)
  · split at h
    · exact absurd h (by simp)
    · rename_i h1 h2
      push_neg at h2
      injection h with h
      exact ⟨by omega, h2.1, h2.2, h.symm⟩

theorem parse_syncword (data : List Nat) (hdr : AdtsHeader)
    (h : parse_adts_header data = some hdr) : hdr.syncword = 0xFFF := by
  obtain ⟨-, -, -, hrec⟩ := parse_eq_some data hdr h
  rw [hrec]

/-- C5: `parse_adts_header` fails exactly when fewer than 7 bytes remain or the
two bytes at the offset do not match the sync pattern (first byte 0xFF, top
nibble of the second byte 0xF); no other input is rejected, so reserved
sampling-frequency indices and arbitrary frame lengths are accepted. -/
theorem parse_invalid_iff (data : List Nat) :
    parse_adts_header data = none ↔
      data.length < 7 ∨ data.getD 0 0 ≠ 0xFF ∨ (data.getD 1 0) &&& 0xF0 ≠ 0xF0 := by
  unfold parse_adts_header
  split
  · rename_i h1
    exact iff_of_true rfl (Or.inl h1)
  · rename_i h1
    split
    · rename_i h2
      exact iff_of_true rfl (Or.inr h2)
    · rename_i h2
      push_neg at h2
      constructor
      · intro h
        exact Option.noConfusion h
      · intro h
        rcases h with h | h | h
        · exact absurd h h1
        · exact absurd h2.1 h
        · exact absurd h2.2 h

/-- C3: `find_adts_sync` returns the lowest index `i` in the scanned range such
that byte `i` is 0xFF and the top nibble of byte `i + 1` is 0xF with `i + 1`
still inside the buffer, and returns NOT_FOUND (`none`) if and only if no such
index exists. -/
theorem find_adts_sync_spec (l : List Nat) (i : Nat) :
    (find_adts_sync l = some i ↔ syncPred l i ∧ ∀ j, j < i → ¬ syncPred l j) ∧
    (find_adts_sync l = none ↔ ∀ j, ¬ syncPred l j) :=
  ⟨find_adts_sync_some l i, find_adts_sync_none l⟩

theorem fields_of_bytes (b0 b1 b2 b3 b4 b5 b6 : Nat) (h0 : b0 < 256) (h1 : b1 < 256)
    (h2 : b2 < 256) (h3 : b3 < 256) (h4 : b4 < 256) (h5 : b5 < 256) (h6 : b6 < 256) :
    bigEndianFields (b0 * 281474976710656 + b1 * 1099511627776 + b2 * 4294967296 +
        b3 * 16777216 + b4 * 65536 + b5 * 256 + b6) =
      ⟨(b1 >>> 3) &&& 1, (b1 >>> 1) &&& 3, b1 &&& 1, (b2 >>> 6) &&& 3, (b2 >>> 2) &&& 15,
       (b2 >>> 1) &&& 1, ((b2 &&& 1) <<< 2) ||| ((b3 >>> 6) &&& 3), (b3 >>> 5) &&& 1,
       (b3 >>> 4) &&& 1, (b3 >>> 3) &&& 1, (b3 >>> 2) &&& 1,
       ((b3 &&& 3) <<< 11) ||| (b4 <<< 3) ||| ((b5 >>> 5) &&& 7),
       ((b5 &&& 31) <<< 6) ||| ((b6 >>> 2) &&& 63), b6 &&& 3⟩ := by
  unfold bigEndianFields bitField
  rw [channel_config_decomp, frame_length_decomp b3 b4 b5 h4, buffer_fullness_decomp]
  simp only [SpecFields.mk.injEq, Nat.shiftRight_eq_div_pow, and_one, and_three, and_fifteen]
  refine ⟨?_, ?_, ?_, ?_, ?_, ?_, ?_, ?_, ?_, ?_, ?_, ?_, ?_, ?_⟩ <;>
    · norm_num
      omega

/-- C4: on success, every field of the parsed header record equals the
big-endian fixed-width bit-field decomposition of the 7 header bytes at the §3
offsets and widths. -/
theorem parse_fields_big_endian (data : List Nat) (hdr : AdtsHeader)
    (hb : ∀ b ∈ data, b < 256) (hp : parse_adts_header data = some hdr) :
    bigEndianFields (headerWord data) =
      ⟨hdr.id, hdr.layer, hdr.protection_absent, hdr.profile, hdr.sf_index, hdr.private_bit,
       hdr.channel_config, hdr.original, hdr.home, hdr.copyright_bit, hdr.copyright_start,
       hdr.frame_length, hdr.buffer_fullness, hdr.num_raw_blocks⟩ := by
  obtain ⟨hlen, hs0, hs1, hrec⟩ := parse_eq_some data hdr hp
  subst hrec
  unfold headerWord
  exact fields_of_bytes _ _ _ _ _ _ _ (byte_getD_lt data hb 0) (byte_getD_lt data hb 1)
    (byte_getD_lt data hb 2) (byte_getD_lt data hb 3) (byte_getD_lt data hb 4)
    (byte_getD_lt data hb 5) (byte_getD_lt data hb 6)

/-- C4 witness: the claim instantiated on the concrete frame `exFrame`. -/
theorem parse_fields_big_endian_wit :
    (∀ b ∈ exFrame, b < 256) ∧ parse_adts_header exFrame = some exHdr ∧
    bigEndianFields (headerWord exFrame) =
      ⟨exHdr.id, exHdr.layer, exHdr.protection_absent, exHdr.profile, exHdr.sf_index,
       exHdr.private_bit, exHdr.channel_config, exHdr.original, exHdr.home,
       exHdr.copyright_bit, exHdr.copyright_start, exHdr.frame_length,
       exHdr.buffer_fullness, exHdr.num_raw_blocks⟩ :=
  ⟨by decide, by decide, parse_fields_big_endian exFrame exHdr (by decide) (by decide)⟩

theorem driveStep_next_pos {f : List Nat} {mf : Int} {dec : Nat → DecodeResult}
    {s s' : DriverState} (h : driveStep f mf dec s = .next s') :
    s.pos < s'.pos ∧ s.pos < f.length := by
  unfold driveStep at h
  split at h
  · rename_i hc
    refine ⟨?_, hc.1⟩
    split at h
    · exact absurd h (by simp)
    · rename_i k hk
      split at h
      · cases h
        dsimp only
        omega
      · rename_i hdr hphdr
        split at h
        · cases h
          dsimp only
          omega
        · rename_i hval
          have hflen : 7 ≤ hdr.frame_length := by
            rcases Nat.lt_or_ge hdr.frame_length 7 with hlt | hge
            · exact absurd (Or.inl hlt) hval
            · exact hge
          split at h
          · cases h
            dsimp only
            omega
          · split at h
            · cases h
              dsimp only
              omega
            · cases h
              dsimp only
              omega
  · exact absurd h (by simp)

theorem driveAux_suff (f : List Nat) (mf : Int) (dec : Nat → DecodeResult) :
    ∀ fuel s, f.length - s.pos < fuel → (driveAux f mf dec fuel s).isSome = true := by
  intro fuel
  induction fuel with
  | zero =>
    intro s hfu
    omega
  | succ n ih =>
    intro s hfu
    unfold driveAux
    cases hs : driveStep f mf dec s with
    | halt => rfl
    | next s' =>
      have hp := driveStep_next_pos hs
      exact ih s' (by omega)

theorem driveStep_next_counts {f : List Nat} {mf : Int} {dec : Nat → DecodeResult}
    {s s' : DriverState} (h : driveStep f mf dec s = .next s') :
    (s'.frame_num = s.frame_num ∧ s'.calls = s.calls ∧ s'.artifacts = s.artifacts) ∨
    (s'.frame_num = s.frame_num + 1 ∧ s'.calls = s.calls + 1 ∧
      s'.artifacts.countP isHeaderArtifact = s.artifacts.countP isHeaderArtifact + 1) := by
  unfold driveStep at h
  split at h
  · split at h
    · exact absurd h (by simp)
    · split at h
      · cases h
        exact Or.inl ⟨rfl, rfl, rfl⟩
      · split at h
        · cases h
          exact Or.inl ⟨rfl, rfl, rfl⟩
        · split at h
          · cases h
            refine Or.inr ⟨rfl, rfl, ?_⟩
            simp [List.countP_append, List.countP_cons, isHeaderArtifact]
          · split at h
            · cases h
              refine Or.inr ⟨rfl, rfl, ?_⟩
              simp [List.countP_append, List.countP_cons, isHeaderArtifact]
            · cases h
              refine Or.inr ⟨rfl, rfl, ?_⟩
              simp [List.countP_append, List.countP_cons, isHeaderArtifact]
  · exact absurd h (by simp)

theorem driveStep_next_headers {f : List Nat} {mf : Int} {dec : Nat → DecodeResult}
    {s s' : DriverState} (h : driveStep f mf dec s = .next s') :
    ∀ fr bs, Artifact.header fr bs ∈ s'.artifacts →
      Artifact.header fr bs ∈ s.artifacts ∨
      ∃ hdr : AdtsHeader, hdr.syncword = 0xFFF ∧ bs = dump_adts_header_bytes hdr := by
  unfold driveStep at h
  split at h
  · split at h
    · exact absurd h (by simp)
    · rename_i k hk
      split at h
      · cases h
        intro fr bs hm
        exact Or.inl hm
      · rename_i hdr hphdr
        have hsw : hdr.syncword = 0xFFF := parse_syncword _ _ hphdr
        split at h
        · cases h
          intro fr bs hm
          exact Or.inl hm
        · split at h
          · cases h
            intro fr bs hm
            rcases List.mem_append.1 hm with hm | hm
            · exact Or.inl hm
            · simp only [List.mem_singleton, Artifact.header.injEq] at hm
              exact Or.inr ⟨hdr, hsw, hm.2⟩
          · split at h
            · cases h
              intro fr bs hm
              rcases List.mem_append.1 hm with hm | hm
              · exact Or.inl hm
              · simp only [List.mem_cons, List.mem_singleton, Artifact.header.injEq] at hm
                rcases hm with ⟨-, rfl⟩ | hm
                · exact Or.inr ⟨hdr, hsw, rfl⟩
                · exact absurd hm (by simp)
            · cases h
              intro fr bs hm
              rcases List.mem_append.1 hm with hm | hm
              · exact Or.inl hm
              · simp only [List.mem_singleton, Artifact.header.injEq] at hm
                exact Or.inr ⟨hdr, hsw, hm.2⟩
  · exact absurd h (by simp)

theorem driveAux_counts (f : List Nat) (mf : Int) (dec : Nat → DecodeResult) :
    ∀ fuel s r, driveAux f mf dec fuel s = some r →
      r.frame_num + s.calls = s.frame_num + r.calls ∧
      r.frame_num + s.artifacts.countP isHeaderArtifact =
        s.frame_num + r.artifacts.countP isHeaderArtifact := by
  intro fuel
  induction fuel with
  | zero =>
    intro s r h
    exact absurd h (by simp [driveAux])
  | succ n ih =>
    intro s r h
    unfold driveAux at h
    cases hs : driveStep f mf dec s with
    | halt =>
      rw [hs] at h
      injection h with h
      subst h
      exact ⟨rfl, rfl⟩
    | next s' =>
      rw [hs] at h
      have h2 := ih s' r h
      rcases driveStep_next_counts hs with ⟨e1, e2, e3⟩ | ⟨e1, e2, e3⟩
      · rw [e3] at h2
        omega
      · rw [e3] at h2
        omega

theorem driveAux_headers (f : List Nat) (mf : Int) (dec : Nat → DecodeResult) :
    ∀ fuel s r, driveAux f mf dec fuel s = some r →
      ∀ fr bs, Artifact.header fr bs ∈ r.artifacts →
        Artifact.header fr bs ∈ s.artifacts ∨
        ∃ hdr : AdtsHeader, hdr.syncword = 0xFFF ∧ bs = dump_adts_header_bytes hdr := by
  intro fuel
  induction fuel with
  | zero =>
    intro s r h
    exact absurd h (by simp [driveAux])
  | succ n ih =>
    intro s r h
    unfold driveAux at h
    cases hs : driveStep f mf dec s with
    | halt =>
      rw [hs] at h
      injection h with h
      subst h
      intro fr bs hm
      exact Or.inl hm
    | next s' =>
      rw [hs] at h
      intro fr bs hm
      rcases ih s' r h fr bs hm with hm' | hfound
      · exact driveStep_next_headers hs fr bs hm'
      · exact Or.inr hfound

/-- C6: the decode loop terminates on every input — an iteration that reaches a
sync candidate strictly increases the cursor (to the candidate position plus 1
when header parsing or frame-length validation fails, and plus
`frame_length ≥ 7` when the frame is processed, whether or not decode errors),
so the remaining-byte measure drops and `f.length - s.pos + 1` loop iterations
always complete the run. -/
theorem driver_progress (f : List Nat) (mf : Int) (dec : Nat → DecodeResult)
    (s s' : DriverState) (h : driveStep f mf dec s = .next s') :
    s.pos < s'.pos ∧ f.length - s'.pos < f.length - s.pos ∧
    (driveAux f mf dec (f.length - s.pos + 1) s).isSome = true ∧
    ∃ k, find_adts_sync (f.drop s.pos) = some k ∧
      ((s'.frame_num = s.frame_num ∧ s'.pos = s.pos + k + 1) ∨
       (∃ hdr, parse_adts_header (f.drop (s.pos + k)) = some hdr ∧
          7 ≤ hdr.frame_length ∧ s'.frame_num = s.frame_num + 1 ∧
          s'.pos = s.pos + k + hdr.frame_length)) := by
  have hp := driveStep_next_pos h
  refine ⟨hp.1, by omega, driveAux_suff f mf dec _ s (by omega), ?_⟩
  unfold driveStep at h
  split at h
  · split at h
    · exact absurd h (by simp)
    · rename_i k hk
      refine ⟨k, hk, ?_⟩
      split at h
      · cases h
        exact Or.inl ⟨rfl, rfl⟩
      · rename_i hdr hphdr
        split at h
        · cases h
          exact Or.inl ⟨rfl, rfl⟩
        · rename_i hval
          have hflen : 7 ≤ hdr.frame_length := by
            rcases Nat.lt_or_ge hdr.frame_length 7 with hlt | hge
            · exact absurd (Or.inl hlt) hval
            · exact hge
          split at h
          · cases h
            exact Or.inr ⟨hdr, hphdr, hflen, rfl, rfl⟩
          · split at h
            · cases h
              exact Or.inr ⟨hdr, hphdr, hflen, rfl, rfl⟩
            · cases h
              exact Or.inr ⟨hdr, hphdr, hflen, rfl, rfl⟩
  · exact absurd h (by simp)

/-- C6 witness: the loop body applied at the start of `exFrame` continues and
advances the cursor from 0 to 7. -/
theorem driver_progress_wit :
    driveStep exFrame 1 exDecodeOk ⟨0, 0, 0, 0, []⟩ = .next ⟨7, 1, 1, 1, exArts⟩ ∧ (0 : Nat) < 7 :=
  ⟨by decide,
   (driver_progress exFrame 1 exDecodeOk ⟨0, 0, 0, 0, []⟩ ⟨7, 1, 1, 1, exArts⟩ (by decide)).1⟩

theorem drive_counts (f : List Nat) (mf : Int) (dec : Nat → DecodeResult) (pos : Nat) :
    (drive f mf dec ⟨pos, 0, 0, 0, []⟩).frame_num = (drive f mf dec ⟨pos, 0, 0, 0, []⟩).calls ∧
    (drive f mf dec ⟨pos, 0, 0, 0, []⟩).frame_num =
      (drive f mf dec ⟨pos, 0, 0, 0, []⟩).artifacts.countP isHeaderArtifact := by
  unfold drive
  cases h : driveAux f mf dec (f.length + 1 - (⟨pos, 0, 0, 0, []⟩ : DriverState).pos)
      ⟨pos, 0, 0, 0, []⟩ with
  | none => exact ⟨rfl, rfl⟩
  | some r =>
    have hc := driveAux_counts f mf dec _ _ _ h
    simp only [Option.getD_some]
    dsimp only at hc
    simp only [List.countP_nil] at hc
    omega

/-- C7: the `total_frames` value written to the summary equals the number of
SCANNING-to-DECODING transitions — the number of decoder invocations, which is
also the number of header artifacts written (one per frame that passed header
parsing and frame-length validation, decode errors included); rejected sync
candidates are not counted. -/
theorem total_frames_counts_decode_transitions (f : List Nat) (mf : Int)
    (ini : InitResult) (dec : Nat → DecodeResult) (pos : Nat) :
    ((main_run f mf ini dec).map fun o => o.total_frames) =
      ((main_run f mf ini dec).map fun o => o.artifacts.countP isHeaderArtifact) ∧
    (drive f mf dec ⟨pos, 0, 0, 0, []⟩).frame_num =
      (drive f mf dec ⟨pos, 0, 0, 0, []⟩).calls ∧
    (drive f mf dec ⟨pos, 0, 0, 0, []⟩).frame_num =
      (drive f mf dec ⟨pos, 0, 0, 0, []⟩).artifacts.countP isHeaderArtifact := by
  refine ⟨?_, (drive_counts f mf dec pos).1, (drive_counts f mf dec pos).2⟩
  unfold main_run
  cases hf : find_adts_sync f with
  | none => rfl
  | some off =>
    dsimp only
    by_cases hi : ini.consumed < 0
    · rw [if_pos hi]
      rfl
    · rw [if_neg hi]
      exact congrArg some ((drive_counts f mf dec off).2)

/-- C8: when `max_frames ≤ 0` (in particular 0), decoder initialization is still
performed (its failure aborts the run and its stream parameters flow into the
summary), but the loop condition `frame_num < max_frames` fails at once, so the
summary is written with `total_frames = 0`, `total_samples = 0` and no frame
artifacts are produced. -/
theorem max_frames_zero_run (f : List Nat) (mf : Int) (ini : InitResult)
    (dec : Nat → DecodeResult) (off : Nat)
    (hfind : find_adts_sync f = some off) (hini : ¬ ini.consumed < 0) (hmf : mf ≤ 0) :
    main_run f mf ini dec = some ⟨ini.sample_rate, ini.channels, 0, 0, []⟩ := by
  have hstep : driveStep f mf dec ⟨off, 0, 0, 0, []⟩ = .halt := by
    unfold driveStep
    rw [if_neg]
    rintro ⟨-, hlt⟩
    dsimp only at hlt
    omega
  have hdrv : drive f mf dec ⟨off, 0, 0, 0, []⟩ = ⟨off, 0, 0, 0, []⟩ := by
    unfold drive
    cases hfu : f.length + 1 - (⟨off, 0, 0, 0, []⟩ : DriverState).pos with
    | zero => rfl
    | succ n =>
      unfold driveAux
      rw [hstep]
      rfl
  unfold main_run
  rw [hfind]
  dsimp only
  rw [if_neg hini, hdrv]

/-- C8 witness: a run over `exFrame` with `max_frames = 0` and successful
initialization yields the empty summary. -/
theorem max_frames_zero_run_wit :
    main_run exFrame 0 ⟨0, 44100, 2⟩ exDecodeOk = some ⟨44100, 2, 0, 0, []⟩ :=
  max_frames_zero_run exFrame 0 ⟨0, 44100, 2⟩ exDecodeOk 0 (by decide) (by decide) (by decide)

/-- C9: every header artifact a run writes begins with the constant bytes 0x0F
and 0xFF — the parser stores the fixed syncword 0x0FFF (never the raw stream
bytes) and the writer serializes it big-endian — so this 2-byte lead-in is
identical across all `frame_NNNN_adts.bin` files of every run. -/
theorem header_artifact_sync_marker (f : List Nat) (mf : Int) (dec : Nat → DecodeResult)
    (pos fn ts c : Nat) (fr : Nat) (bs : List Nat)
    (hmem : Artifact.header fr bs ∈ (drive f mf dec ⟨pos, fn, ts, c, []⟩).artifacts) :
    bs.getD 0 0 = 0x0F ∧ bs.getD 1 0 = 0xFF := by
  unfold drive at hmem
  cases haux : driveAux f mf dec
      (f.length + 1 - (⟨pos, fn, ts, c, []⟩ : DriverState).pos) ⟨pos, fn, ts, c, []⟩ with
  | none =>
    rw [haux] at hmem
    exact absurd hmem (by simp)
  | some r =>
    rw [haux] at hmem
    simp only [Option.getD_some] at hmem
    rcases driveAux_headers f mf dec _ _ _ haux fr bs hmem with hin | ⟨hdr, hsw, rfl⟩
    · exact absurd hin (by simp)
    · unfold dump_adts_header_bytes
      rw [hsw]
      exact ⟨rfl, rfl⟩

/-- C9 witness: the header artifact written for `exFrame` starts with 0x0F 0xFF. -/
theorem header_artifact_sync_marker_wit :
    ([15, 255, 0, 0, 1, 1, 4, 0, 0, 0, 0, 0, 7, 0, 0, 0] : List Nat).getD 0 0 = 0x0F ∧
    ([15, 255, 0, 0, 1, 1, 4, 0, 0, 0, 0, 0, 7, 0, 0, 0] : List Nat).getD 1 0 = 0xFF :=
  header_artifact_sync_marker exFrame 1 exDecodeOk 0 0 0 0 0
    [15, 255, 0, 0, 1, 1, 4, 0, 0, 0, 0, 0, 7, 0, 0, 0] (by decide)

/-- C10: when a frame decodes without error, with a non-NULL buffer,
`sample_count > 0` and a `channel_count` that does not divide it, the loop adds
the truncated quotient `sample_count / channel_count` to `total_samples` and the
PCM artifact holds exactly `(sample_count / channel_count) * channel_count * 2`
bytes — `(sample_count - sample_count % channel_count) * 2`, strictly fewer than
`sample_count * 2`, silently dropping the remainder samples. -/
theorem pcm_truncating_division (f : List Nat) (mf : Int) (dec : Nat → DecodeResult)
    (s s' : DriverState) (h : driveStep f mf dec s = .next s')
    (hfn : s'.frame_num = s.frame_num + 1)
    (herr : (dec s.frame_num).error = 0)
    (hptr : (dec s.frame_num).has_samples_ptr = true)
    (hsc : 0 < (dec s.frame_num).samples)
    (hcc : 0 < (dec s.frame_num).channels)
    (hrem : (dec s.frame_num).samples % (dec s.frame_num).channels ≠ 0) :
    s'.total_samples = s.total_samples +
      (dec s.frame_num).samples / (dec s.frame_num).channels ∧
    (∃ hdr, s'.artifacts = s.artifacts ++
      [Artifact.header s.frame_num (dump_adts_header_bytes hdr),
       Artifact.pcm s.frame_num
         (dump_pcm_size ((dec s.frame_num).samples / (dec s.frame_num).channels)
           (dec s.frame_num).channels SampleFormat.fmt16bit)]) ∧
    dump_pcm_size ((dec s.frame_num).samples / (dec s.frame_num).channels)
        (dec s.frame_num).channels SampleFormat.fmt16bit =
      ((dec s.frame_num).samples - (dec s.frame_num).samples % (dec s.frame_num).channels) * 2 ∧
    dump_pcm_size ((dec s.frame_num).samples / (dec s.frame_num).channels)
        (dec s.frame_num).channels SampleFormat.fmt16bit < (dec s.frame_num).samples * 2 := by
  have hdm := Nat.div_add_mod (dec s.frame_num).samples (dec s.frame_num).channels
  rw [Nat.mul_comm (dec s.frame_num).channels
    ((dec s.frame_num).samples / (dec s.frame_num).channels)] at hdm
  have hmle : (dec s.frame_num).samples % (dec s.frame_num).channels ≤
      (dec s.frame_num).samples := Nat.mod_le _ _
  have hsize : dump_pcm_size ((dec s.frame_num).samples / (dec s.frame_num).channels)
      (dec s.frame_num).channels SampleFormat.fmt16bit =
      ((dec s.frame_num).samples - (dec s.frame_num).samples % (dec s.frame_num).channels) * 2 := by
    show (dec s.frame_num).samples / (dec s.frame_num).channels *
        (dec s.frame_num).channels * 2 =
      ((dec s.frame_num).samples - (dec s.frame_num).samples % (dec s.frame_num).channels) * 2
    omega
  have hlt : dump_pcm_size ((dec s.frame_num).samples / (dec s.frame_num).channels)
      (dec s.frame_num).channels SampleFormat.fmt16bit < (dec s.frame_num).samples * 2 := by
    rw [hsize]
    omega
  unfold driveStep at h
  split at h
  · split at h
    · exact absurd h (by simp)
    · split at h
      · cases h
        dsimp only at hfn
        omega
      · split at h
        · cases h
          dsimp only at hfn
          omega
        · split at h
          · rename_i herr2
            exact absurd herr herr2
          · split at h
            · rename_i hdr hphdr hval herr2 hcond
              cases h
              exact ⟨rfl, ⟨hdr, rfl⟩, hsize, hlt⟩
            · rename_i hcond
              exact absurd ⟨hptr, hsc⟩ hcond
  · exact absurd h (by simp)

/-- C10 witness: the decode step on `exFrame` with 3 samples over 2 channels
accumulates 1 per-channel sample and writes a 4-byte PCM artifact. -/
theorem pcm_truncating_division_wit :
    (1 : Nat) = 0 + 3 / 2 ∧
    (∃ hdr, exArts = [] ++
      [Artifact.header 0 (dump_adts_header_bytes hdr),
       Artifact.pcm 0 (dump_pcm_size (3 / 2) 2 SampleFormat.fmt16bit)]) ∧
    dump_pcm_size (3 / 2) 2 SampleFormat.fmt16bit = (3 - 3 % 2) * 2 ∧
    dump_pcm_size (3 / 2) 2 SampleFormat.fmt16bit < 3 * 2 :=
  pcm_truncating_division exFrame 1 exDecodeOk ⟨0, 0, 0, 0, []⟩ ⟨7, 1, 1, 1, exArts⟩
    (by decide) (by decide) (by decide) (by decide) (by decide) (by decide) (by decide)

/-- C1 counterexample: two accepted 7-byte headers that differ exactly in
`copyright_id_bit` and `copyright_id_start` produce bit-identical 16-byte
artifacts, so no field-decoding of the artifact can reproduce those two §3
fields; the round trip as claimed fails on the second buffer. -/
theorem roundtrip_drops_copyright_fields :
    Option.map dump_adts_header_bytes (parse_adts_header [255, 240, 0, 0, 0, 0, 0]) =
      Option.map dump_adts_header_bytes (parse_adts_header [255, 240, 0, 12, 0, 0, 0]) ∧
    Option.map AdtsHeader.copyright_bit (parse_adts_header [255, 240, 0, 0, 0, 0, 0]) = some 0 ∧
    Option.map AdtsHeader.copyright_bit (parse_adts_header [255, 240, 0, 12, 0, 0, 0]) = some 1 ∧
    Option.map AdtsHeader.copyright_start (parse_adts_header [255, 240, 0, 0, 0, 0, 0]) = some 0 ∧
    Option.map AdtsHeader.copyright_start (parse_adts_header [255, 240, 0, 12, 0, 0, 0]) =
      some 1 := by
  decide

/-- C1 (amended): for any buffer `parse_adts_header` accepts, field-decoding the
16-byte artifact written by `dump_adts_header` reproduces exactly the §3 fields
the artifact serializes — mpeg id, layer, protection_absent, profile,
sampling_frequency_index, private_bit, channel_configuration, original_copy,
home, frame_length, buffer_fullness and num_raw_data_blocks_minus_one;
`copyright_id_bit` and `copyright_id_start` are parsed but never serialized, so
they are excluded (see the counterexample). -/
theorem adts_roundtrip_serialized_fields (data : List Nat) (hdr : AdtsHeader)
    (hb : ∀ b ∈ data, b < 256) (hp : parse_adts_header data = some hdr) :
    decode_artifact (dump_adts_header_bytes hdr) =
      some ⟨hdr.id, hdr.layer, hdr.protection_absent, hdr.profile, hdr.sf_index,
            hdr.private_bit, hdr.channel_config, hdr.original, hdr.home,
            hdr.frame_length, hdr.buffer_fullness, hdr.num_raw_blocks⟩ := by
  obtain ⟨hlen, hs0, hs1, hrec⟩ := parse_eq_some data hdr hp
  have hb4 := byte_getD_lt data hb 4
  have hfl : hdr.frame_length < 65536 := by
    rw [hrec]
    dsimp only
    rw [frame_length_decomp _ _ _ hb4]
    omega
  have hbf : hdr.buffer_fullness < 65536 := by
    rw [hrec]
    dsimp only
    rw [buffer_fullness_decomp]
    omega
  show some (⟨hdr.id, hdr.layer, hdr.protection_absent, hdr.profile, hdr.sf_index,
      hdr.private_bit, hdr.channel_config, hdr.original, hdr.home,
      ((hdr.frame_length >>> 8) &&& 255) * 256 + (hdr.frame_length &&& 255),
      ((hdr.buffer_fullness >>> 8) &&& 255) * 256 + (hdr.buffer_fullness &&& 255),
      hdr.num_raw_blocks⟩ : ArtifactFields) = _
  rw [be16_roundtrip hdr.frame_length, be16_roundtrip hdr.buffer_fullness,
    Nat.mod_eq_of_lt hfl, Nat.mod_eq_of_lt hbf]

/-- C1 witness: the amended round trip instantiated on `exFrame`. -/
theorem adts_roundtrip_serialized_fields_wit :
    (∀ b ∈ exFrame, b < 256) ∧ parse_adts_header exFrame = some exHdr ∧
    decode_artifact (dump_adts_header_bytes exHdr) =
      some ⟨exHdr.id, exHdr.layer, exHdr.protection_absent, exHdr.profile, exHdr.sf_index,
            exHdr.private_bit, exHdr.channel_config, exHdr.original, exHdr.home,
            exHdr.frame_length, exHdr.buffer_fullness, exHdr.num_raw_blocks⟩ :=
  ⟨by decide, by decide, adts_roundtrip_serialized_fields exFrame exHdr (by decide) (by decide)⟩

/-- C2 counterexample: two accepted headers whose 16-byte records (shown
literally, so both are exactly 16 bytes) differ at every index from 2 through
15 — each of the 14 bytes after the 2-byte sync marker carries a header field,
so no reserved/unused padding byte exists in the record, contrary to the
claimed layout of 2 + 9 + 2 + 2 + 1 field bytes plus 1 reserved byte. -/
theorem artifact_no_reserved_byte_cex :
    Option.map dump_adts_header_bytes (parse_adts_header [255, 240, 0, 0, 0, 0, 0]) =
      some [15, 255, 0, 0, 0, 0, 0, 0, 0, 0, 0, 0, 0, 0, 0, 0] ∧
    Option.map dump_adts_header_bytes (parse_adts_header [255, 255, 255, 255, 255, 255, 255]) =
      some [15, 255, 1, 3, 1, 3, 15, 1, 7, 1, 1, 31, 255, 7, 255, 3] ∧
    ((List.range 16).drop 2).all
      (fun i => ([15, 255, 0, 0, 0, 0, 0, 0, 0, 0, 0, 0, 0, 0, 0, 0] : List Nat).getD i 0
        != ([15, 255, 1, 3, 1, 3, 15, 1, 7, 1, 1, 31, 255, 7, 255, 3] : List Nat).getD i 0) =
      true := by
  decide

/-- C2 (amended): the header artifact is a fixed 16-byte record laid out as a
2-byte big-endian sync marker, nine single-byte fields (id, layer,
protection_absent, profile, sf_index, private_bit, channel_config, original,
home), two 2-byte big-endian fields holding frame_length and buffer_fullness,
and 1 byte for the raw-block count; these fields fill the record exactly, with
no reserved or padding byte. -/
theorem artifact_record_layout (hdr : AdtsHeader) :
    (dump_adts_header_bytes hdr).length = 16 ∧
    (dump_adts_header_bytes hdr).getD 0 0 * 256 + (dump_adts_header_bytes hdr).getD 1 0 =
      hdr.syncword % 65536 ∧
    (dump_adts_header_bytes hdr).getD 2 0 = hdr.id ∧
    (dump_adts_header_bytes hdr).getD 3 0 = hdr.layer ∧
    (dump_adts_header_bytes hdr).getD 4 0 = hdr.protection_absent ∧
    (dump_adts_header_bytes hdr).getD 5 0 = hdr.profile ∧
    (dump_adts_header_bytes hdr).getD 6 0 = hdr.sf_index ∧
    (dump_adts_header_bytes hdr).getD 7 0 = hdr.private_bit ∧
    (dump_adts_header_bytes hdr).getD 8 0 = hdr.channel_config ∧
    (dump_adts_header_bytes hdr).getD 9 0 = hdr.original ∧
    (dump_adts_header_bytes hdr).getD 10 0 = hdr.home ∧
    (dump_adts_header_bytes hdr).getD 11 0 * 256 + (dump_adts_header_bytes hdr).getD 12 0 =
      hdr.frame_length % 65536 ∧
    (dump_adts_header_bytes hdr).getD 13 0 * 256 + (dump_adts_header_bytes hdr).getD 14 0 =
      hdr.buffer_fullness % 65536 ∧
    (dump_adts_header_bytes hdr).getD 15 0 = hdr.num_raw_blocks :=
  ⟨rfl, be16_roundtrip hdr.syncword, rfl, rfl, rfl, rfl, rfl, rfl, rfl, rfl, rfl,
   be16_roundtrip hdr.frame_length, be16_roundtrip hdr.buffer_fullness, rfl⟩
